/-
Verification of the gateway-resolution engine of `network-default-gateway`.

The repository discovers a host's default network gateway (IPv4 or IPv6) by
spawning platform-native commands (`ip` on Linux, `route`/`ifconfig` on macOS,
PowerShell on Windows) and parsing their output.  This file gives a shallow
embedding of the engine: the pure parsing/selection functions are translated
directly from the TypeScript source, the command spawner is replaced by its
(trimmed) string outputs passed in as arguments, and JavaScript exceptions are
modelled with `Except`.

JSON numbers and metrics are modelled as exact rationals (`Rat`); every such
number the claims exercise lies in the range where IEEE doubles are exact, so
the embedding is faithful there.  The macOS netmask path is sensitive to
double rounding, so its `parseInt` model (`jsParseIntHex`) rounds the parsed
integer to the nearest IEEE-754 binary64 value, including overflow to
infinity; `NaN`/non-finite values are modelled explicitly where they can
arise (`JsNum`, and `Option.none` in the macOS IPv6 prefix-length coercion).
-/
import Mathlib

set_option linter.unusedVariables false

/-! ## JavaScript string primitives -/

/-- The characters matched by the JavaScript regular-expression class `\s`
(also the characters removed by `String.prototype.trim`). -/
def jsIsSpace (c : Char) : Bool :=
  c = ' ' || c = '\t' || c = '\n' || c = '\r' || c = '\x0b' || c = '\x0c' ||
  c.val = 0xa0 || c.val = 0x1680 || (0x2000 ≤ c.val && c.val ≤ 0x200a) ||
  c.val = 0x2028 || c.val = 0x2029 || c.val = 0x202f || c.val = 0x205f ||
  c.val = 0x3000 || c.val = 0xfeff

/-- Models `String.prototype.trim`: strip leading and trailing JavaScript whitespace.
This is what every runtime spawner applies to captured standard output. -/
def jsTrim (s : String) : String :=
  String.mk (((s.toList.dropWhile jsIsSpace).reverse.dropWhile jsIsSpace).reverse)

/-- Maximal runs of non-whitespace characters of a character list. -/
def wsTokens : List Char → List Char → List String
  | acc, [] => if acc.isEmpty then [] else [String.mk acc.reverse]
  | acc, c :: cs =>
    if jsIsSpace c then
      if acc.isEmpty then wsTokens [] cs
      else String.mk acc.reverse :: wsTokens [] cs
    else wsTokens (c :: acc) cs

/-- Last character of a nonempty character list (head passed separately). -/
def lastCharOf (c : Char) : List Char → Char
  | [] => c
  | d :: ds => lastCharOf d ds

/-- JavaScript `input.split(/\s+/)`: the segments between maximal whitespace
runs, including an empty leading segment when the string starts with
whitespace and an empty trailing segment when it ends with whitespace; the
empty string yields `[""]`. -/
def jsSplitWs (s : String) : List String :=
  match s.toList with
  | [] => [""]
  | c :: cs =>
    (if jsIsSpace c then [""] else []) ++ wsTokens [] (c :: cs) ++
      (if jsIsSpace (lastCharOf c cs) then [""] else [])

/-! ## macOS pure utilities (src/platforms/macos/macos-utils.ts) -/

/-- Embeds `valueFromKey` (macos-utils.ts): split the input on `/\s+/`, locate the
first occurrence of `key`, and return the part that follows it; `none`
models the JavaScript `null` returned when the key is absent or is the last
part.  Being a total function into `Option`, it can never throw. -/
def valueFromKey (input key : String) : Option String :=
  let parts := jsSplitWs input
  match parts.findIdx? (· == key) with
  | none => none
  | some index => parts[index + 1]?

/-- Hexadecimal digit recognizer used by `parseInt(_, 16)`. -/
def jsIsHexDigit (c : Char) : Bool :=
  c.isDigit || ('a' ≤ c && c ≤ 'f') || ('A' ≤ c && c ≤ 'F')

/-- Numeric value of a hexadecimal digit. -/
def hexDigitVal (c : Char) : Nat :=
  if c.isDigit then c.toNat - '0'.toNat
  else if 'a' ≤ c && c ≤ 'f' then c.toNat - 'a'.toNat + 10
  else c.toNat - 'A'.toNat + 10

/-- Value of a list of hexadecimal digits, most significant first. -/
def hexVal (ds : List Char) : Nat :=
  ds.foldl (fun acc c => acc * 16 + hexDigitVal c) 0

/-- The mathematical integer denoted by the argument of `parseInt(s, 16)`:
skip leading whitespace, read an optional sign, skip an optional `0x`/`0X`
prefix, then read the longest run of hexadecimal digits.  `none` models `NaN`
(no digits found).  `parseInt` itself returns this value rounded to an
IEEE-754 double — see `jsParseIntHex`. -/
def jsParseIntHexExact (s : String) : Option Int :=
  let cs := s.toList.dropWhile jsIsSpace
  let (sign, cs1) : Int × List Char :=
    match cs with
    | '-' :: r => (-1, r)
    | '+' :: r => (1, r)
    | _ => (1, cs)
  let cs2 :=
    match cs1 with
    | '0' :: 'x' :: r => r
    | '0' :: 'X' :: r => r
    | _ => cs1
  let ds := cs2.takeWhile jsIsHexDigit
  if ds.isEmpty then none else some (sign * (hexVal ds : Int))

/-- A JavaScript number as `parseInt` can produce it: `NaN`, a signed
infinity, or an integer exactly representable as an IEEE-754 double. -/
inductive JsNum where
  | nan
  | inf (neg : Bool)
  | num (v : Int)
  deriving DecidableEq, Repr

/-- Number of binary digits of `n` (0 for 0); the first argument is fuel. -/
def bitLenAux : Nat → Nat → Nat
  | 0, _ => 0
  | fuel + 1, n => if n = 0 then 0 else bitLenAux fuel (n / 2) + 1

/-- Number of binary digits of a natural number. -/
def natBitLen (n : Nat) : Nat := bitLenAux n n

/-- Round a natural number to 53 significant bits — the IEEE-754 binary64
significand — with round-to-nearest, ties-to-even, exponent unbounded.
Overflow to infinity is decided by the caller on the result. -/
def roundToDoubleMag (n : Nat) : Nat :=
  let b := natBitLen n
  if b ≤ 53 then n
  else
    let shift := b - 53
    let q := n / 2 ^ shift
    let r := n % 2 ^ shift
    let half := 2 ^ (shift - 1)
    let q2 := if half < r ∨ (r = half ∧ q % 2 = 1) then q + 1 else q
    q2 * 2 ^ shift

/-- JavaScript `parseInt(s, 16)`: the mathematical integer denoted by the
string (`jsParseIntHexExact`), converted to a Number — that is, rounded to
the nearest IEEE-754 double.  Values of 2^53 and above therefore lose their
low bits, and a rounded magnitude reaching 2^1024 overflows to infinity;
`JsNum.nan` models `NaN` (no digits found). -/
def jsParseIntHex (s : String) : JsNum :=
  match jsParseIntHexExact s with
  | none => JsNum.nan
  | some v =>
    let rm := roundToDoubleMag v.natAbs
    if 1024 < natBitLen rm then JsNum.inf (v < 0)
    else JsNum.num (if v < 0 then -(rm : Int) else (rm : Int))

/-- Binary digit characters of `n`, most significant first; `[]` for `0`.
The first argument is fuel bounding the recursion depth. -/
def natToBinaryAux : Nat → Nat → List Char
  | 0, _ => []
  | fuel + 1, n =>
    if n = 0 then []
    else natToBinaryAux fuel (n / 2) ++ [if n % 2 = 1 then '1' else '0']

/-- Binary rendering of a natural number, as JavaScript
`Number.prototype.toString(2)` produces for nonnegative integers. -/
def natToBinary (n : Nat) : String :=
  if n = 0 then "0" else String.mk (natToBinaryAux n n)

/-- JavaScript `n.toString(2)` for the result of `parseInt`: `NaN` renders
as `"NaN"`, infinities as `"Infinity"`/`"-Infinity"`, a negative integer as
a minus sign followed by the binary digits of its absolute value. -/
def jsToStringBase2 : JsNum → String
  | JsNum.nan => "NaN"
  | JsNum.inf neg => if neg then "-Infinity" else "Infinity"
  | JsNum.num n => if n < 0 then "-" ++ natToBinary n.natAbs else natToBinary n.natAbs

/-- Count of `'1'` characters of a string, as the source's
`binary.split('').filter((bit) => bit === '1').length`. -/
def countOnes (s : String) : Nat :=
  (s.toList.filter (fun bit => bit == '1')).length

/-- The error taxonomy of src/types.ts (plus the macos-utils.ts local error
classes).  `SpawnFailure` models the runtime spawner rejecting because the
child process exited non-zero (e.g. `grep` finding no line), and
`TypeMismatch` stands for the untyped JavaScript breakage that follows when
parsed JSON does not have the shape the code assumes; neither is reachable in
any claim below. -/
inductive Err where
  | DefaultGatewayNotAvailable
  | DefaultInterfaceNotFound
  | NoAvailableNetwork
  | JSONParsingSpawnerOutput
  | DeviceIpNotFound
  | NetmaskNotFound
  | PrefixLengthNotFound
  | PrefixLengthNotValid
  | TypeMismatch
  | SpawnFailure
  deriving DecidableEq, Repr

instance {ε α : Type} [DecidableEq ε] [DecidableEq α] : DecidableEq (Except ε α) := fun
  | .ok a, .ok b => if h : a = b then .isTrue (by simp [h]) else .isFalse (by simp [h])
  | .ok _, .error _ => .isFalse (by simp)
  | .error _, .ok _ => .isFalse (by simp)
  | .error d, .error e => if h : d = e then .isTrue (by simp [h]) else .isFalse (by simp [h])

/-- Embeds `netmaskToPrefixLength` (macos-utils.ts): interpret the netmask as a
hexadecimal integer via `parseInt(netmask, 16)`, render it in binary, and
count the `'1'` characters; a count above 32 throws
`PrefixLengthNotValidError`. -/
def netmaskToPrefixLength (netmask : String) : Except Err Nat :=
  let binary := jsToStringBase2 (jsParseIntHex netmask)
  let prefixLength := countOnes binary
  if prefixLength > 32 then .error .PrefixLengthNotValid else .ok prefixLength


/-! ## JSON values and `JSON.parse`

Modelled from the spec: the Linux and Windows parsers decode command output
with the JavaScript built-in `JSON.parse` (ECMA-404 grammar), which is not
part of the repository.  Numbers are kept as exact rationals. -/

/-- A parsed JSON value. -/
inductive JVal where
  | jnull
  | jbool (b : Bool)
  | jnum (q : Rat)
  | jstr (s : String)
  | jarr (elems : List JVal)
  | jobj (fields : List (String × JVal))

/-- JSON insignificant whitespace. -/
def skipJsonWs (cs : List Char) : List Char :=
  cs.dropWhile (fun c => c = ' ' || c = '\t' || c = '\n' || c = '\r')

/-- Consume the expected literal characters, returning the rest. -/
def expectChars : List Char → List Char → Option (List Char)
  | cs, [] => some cs
  | c :: cs, p :: ps => if c = p then expectChars cs ps else none
  | [], _ :: _ => none

/-- The character `{`. -/
def openBrace : Char := Char.ofNat 0x7b

/-- The character `}`. -/
def closeBrace : Char := Char.ofNat 0x7d

/-- Body of a JSON string after the opening quote: handles the escape
sequences of ECMA-404 (`\u` outside the surrogate range taken literally). -/
def parseJStrAux : List Char → List Char → Option (String × List Char)
  | _, [] => none
  | acc, '"' :: cs => some (String.mk acc.reverse, cs)
  | acc, '\\' :: '"' :: cs => parseJStrAux ('"' :: acc) cs
  | acc, '\\' :: '\\' :: cs => parseJStrAux ('\\' :: acc) cs
  | acc, '\\' :: '/' :: cs => parseJStrAux ('/' :: acc) cs
  | acc, '\\' :: 'b' :: cs => parseJStrAux ('\x08' :: acc) cs
  | acc, '\\' :: 'f' :: cs => parseJStrAux ('\x0c' :: acc) cs
  | acc, '\\' :: 'n' :: cs => parseJStrAux ('\n' :: acc) cs
  | acc, '\\' :: 'r' :: cs => parseJStrAux ('\r' :: acc) cs
  | acc, '\\' :: 't' :: cs => parseJStrAux ('\t' :: acc) cs
  | acc, '\\' :: 'u' :: h1 :: h2 :: h3 :: h4 :: cs =>
    if jsIsHexDigit h1 && jsIsHexDigit h2 && jsIsHexDigit h3 && jsIsHexDigit h4 then
      parseJStrAux (Char.ofNat (hexVal [h1, h2, h3, h4]) :: acc) cs
    else none
  | _, '\\' :: _ => none
  | acc, c :: cs => if c.val < 0x20 then none else parseJStrAux (c :: acc) cs

/-- Longest run of decimal digits and the rest. -/
def spanDigits (cs : List Char) : List Char × List Char :=
  (cs.takeWhile Char.isDigit, cs.dropWhile Char.isDigit)

/-- Value of a list of decimal digits, most significant first. -/
def digitsVal (ds : List Char) : Nat :=
  ds.foldl (fun acc c => acc * 10 + (c.toNat - '0'.toNat)) 0

/-- The exact rational `(-1)^neg * mantissa * 10 ^ (e - fracLen)` denoted by
a scientific literal with `fracLen` fraction digits. -/
def scientificToRat (mantissa : Nat) (fracLen : Nat) (e : Int) (neg : Bool) : Rat :=
  let sign : Int := if neg then -1 else 1
  let shift : Int := e - (fracLen : Int)
  if 0 ≤ shift then ((sign * (mantissa : Int) * 10 ^ shift.toNat : Int) : Rat)
  else mkRat (sign * (mantissa : Int)) (10 ^ (-shift).toNat)

/-- A JSON number: optional minus, integer part without leading zeros,
optional fraction and exponent. -/
def parseJNum (cs : List Char) : Option (Rat × List Char) :=
  let (neg, cs1) : Bool × List Char :=
    match cs with
    | '-' :: r => (true, r)
    | _ => (false, cs)
  let (ids, cs2) := spanDigits cs1
  if ids.isEmpty then none
  else if ids.length > 1 && ids.head? == some '0' then none
  else
    let fracRes : Option (List Char × List Char) :=
      match cs2 with
      | '.' :: r =>
        let (fds, r2) := spanDigits r
        if fds.isEmpty then none else some (fds, r2)
      | _ => some ([], cs2)
    match fracRes with
    | none => none
    | some (fds, cs3) =>
      let expRes : Option (Int × List Char) :=
        match cs3 with
        | 'e' :: r | 'E' :: r =>
          let (esign, r1) : Int × List Char :=
            match r with
            | '+' :: t => (1, t)
            | '-' :: t => (-1, t)
            | _ => (1, r)
          let (eds, r2) := spanDigits r1
          if eds.isEmpty then none else some (esign * (digitsVal eds : Int), r2)
        | _ => some (0, cs3)
      match expRes with
      | none => none
      | some (e, cs4) =>
        some (scientificToRat (digitsVal (ids ++ fds)) fds.length e neg, cs4)

mutual

/-- Recursive-descent JSON value parser; the fuel bounds nesting and is made
ample by `jsonParse`. -/
def parseJVal : Nat → List Char → Option (JVal × List Char)
  | 0, _ => none
  | fuel + 1, cs =>
    match skipJsonWs cs with
    | [] => none
    | c :: r =>
      if c = 'n' then (expectChars r ['u', 'l', 'l']).map (fun rest => (JVal.jnull, rest))
      else if c = 't' then (expectChars r ['r', 'u', 'e']).map (fun rest => (JVal.jbool true, rest))
      else if c = 'f' then
        (expectChars r ['a', 'l', 's', 'e']).map (fun rest => (JVal.jbool false, rest))
      else if c = '"' then (parseJStrAux [] r).map (fun p => (JVal.jstr p.1, p.2))
      else if c = '[' then
        match skipJsonWs r with
        | ']' :: r2 => some (JVal.jarr [], r2)
        | r2 => (parseJArrElems fuel r2).map (fun p => (JVal.jarr p.1, p.2))
      else if c = openBrace then
        match skipJsonWs r with
        | [] => none
        | d :: r2 =>
          if d = closeBrace then some (JVal.jobj [], r2)
          else (parseJObjMembers fuel (d :: r2)).map (fun p => (JVal.jobj p.1, p.2))
      else (parseJNum (c :: r)).map (fun p => (JVal.jnum p.1, p.2))

/-- One or more comma-separated array elements followed by `]`. -/
def parseJArrElems : Nat → List Char → Option (List JVal × List Char)
  | 0, _ => none
  | fuel + 1, cs =>
    match parseJVal fuel cs with
    | none => none
    | some (v, rest) =>
      match skipJsonWs rest with
      | ',' :: r2 => (parseJArrElems fuel r2).map (fun p => (v :: p.1, p.2))
      | ']' :: r2 => some ([v], r2)
      | _ => none

/-- One or more comma-separated object members followed by `}`. -/
def parseJObjMembers : Nat → List Char → Option (List (String × JVal) × List Char)
  | 0, _ => none
  | fuel + 1, cs =>
    match skipJsonWs cs with
    | '"' :: r =>
      match parseJStrAux [] r with
      | none => none
      | some (k, r2) =>
        match skipJsonWs r2 with
        | ':' :: r3 =>
          match parseJVal fuel r3 with
          | none => none
          | some (v, r4) =>
            match skipJsonWs r4 with
            | [] => none
            | d :: r5 =>
              if d = ',' then (parseJObjMembers fuel r5).map (fun p => ((k, v) :: p.1, p.2))
              else if d = closeBrace then some ([(k, v)], r5)
              else none
        | _ => none
    | _ => none

end

/-- Models `JSON.parse`: parse a complete JSON text, allowing surrounding
whitespace only.  `none` models the `SyntaxError` thrown on invalid input
(in particular on the empty string). -/
def jsonParse (s : String) : Option JVal :=
  match parseJVal (2 * s.length + 16) s.toList with
  | some (v, rest) => if (skipJsonWs rest).isEmpty then some v else none
  | none => none

/-- Member lookup on a parsed JSON object (`JSON.parse` keeps the last
duplicate of a key); `none` on non-objects or absent keys, as JavaScript
property access yields `undefined`. -/
def jGet : JVal → String → Option JVal
  | JVal.jobj fields, key => ((fields.filter (fun p => p.1 == key)).getLast?).map (fun p => p.2)
  | _, _ => none

/-- A JSON string value, or `none`. -/
def jStr? : JVal → Option String
  | JVal.jstr s => some s
  | _ => none

/-- A JSON number value, or `none`. -/
def jNum? : JVal → Option Rat
  | JVal.jnum q => some q
  | _ => none

/-! ## Shared data model (src/types.ts) -/

/-- Embeds `AddressFamily` of src/types.ts. -/
inductive AddressFamily where
  | IPv4
  | IPv6
  deriving DecidableEq, Repr

/-- Embeds `UnixAddressFamily` of src/types.ts: the textual family marker used by
`ip`/`ifconfig` output. -/
def unixAddressFamily : AddressFamily → String
  | AddressFamily.IPv4 => "inet"
  | AddressFamily.IPv6 => "inet6"

/-- The public result record `NetworkDefaultGateway` of src/types.ts.
`prefixLength` is a JavaScript number; `none` models a non-finite value,
which only the macOS IPv6 path could produce. -/
structure NetworkDefaultGateway where
  ip : String
  gateway : String
  interface : String
  prefixLength : Option Rat
  deriving DecidableEq, Repr

/-! ## Linux parser (src/platforms/linux/linux-utils.ts and linux-platform.ts)

The spawner is replaced by its outputs: `defaultGateway` receives the trimmed
standard output of `ip {-4|-6} -j route show default` and a function giving
the trimmed output of `ip -j addr show <device>` for each device name. -/

/-- Embeds `IpRoute` (linux-utils.ts).  `dst` and `protocol` are carried but never
read by the engine, so their decoders tolerate absence. -/
structure IpRoute where
  dst : Option String
  gateway : String
  dev : String
  protocol : Option String
  metric : Rat
  deriving DecidableEq, Repr

/-- Embeds `IpAddrInfo` (linux-utils.ts); `local_` renders the source field `local`,
which is a reserved word in Lean. -/
structure IpAddrInfo where
  family : String
  local_ : String
  prefixlen : Rat
  deriving DecidableEq, Repr

/-- Embeds `IpAddr` (linux-utils.ts). -/
structure IpAddr where
  ifname : String
  operstate : String
  addr_info : List IpAddrInfo
  deriving DecidableEq, Repr

/-- Embeds `LinuxInterface` (linux-utils.ts): an `IpRoute` merged with an `IpAddr`
(without `addr_info`) and one `IpAddrInfo`. -/
structure LinuxInterface where
  dst : Option String
  gateway : String
  dev : String
  protocol : Option String
  metric : Rat
  ifname : String
  operstate : String
  family : String
  local_ : String
  prefixlen : Rat
  deriving DecidableEq, Repr

/-- Embeds `LinuxOperstate.Up` (linux-utils.ts). -/
def linuxOperstateUp : String := "UP"

/-- Decode one parsed route object into an `IpRoute`.  The fields the engine
reads (`gateway`, `dev`, `metric`) must be present with the right type;
JavaScript would instead propagate `undefined`, a shape no claim exercises. -/
def decodeIpRoute (j : JVal) : Option IpRoute :=
  match jGet j "gateway" >>= jStr?, jGet j "dev" >>= jStr?, jGet j "metric" >>= jNum? with
  | some gateway, some dev, some metric =>
    some { dst := jGet j "dst" >>= jStr?, gateway := gateway, dev := dev,
           protocol := jGet j "protocol" >>= jStr?, metric := metric }
  | _, _, _ => none

/-- Decode one parsed address-info object into an `IpAddrInfo`. -/
def decodeIpAddrInfo (j : JVal) : Option IpAddrInfo :=
  match jGet j "family" >>= jStr?, jGet j "local" >>= jStr?, jGet j "prefixlen" >>= jNum? with
  | some family, some local1, some prefixlen =>
    some { family := family, local_ := local1, prefixlen := prefixlen }
  | _, _, _ => none

/-- Decode one parsed address object into an `IpAddr`. -/
def decodeIpAddr (j : JVal) : Option IpAddr :=
  match jGet j "ifname" >>= jStr?, jGet j "operstate" >>= jStr?, jGet j "addr_info" with
  | some ifname, some operstate, some (JVal.jarr els) =>
    match els.mapM decodeIpAddrInfo with
    | some infos => some { ifname := ifname, operstate := operstate, addr_info := infos }
    | none => none
  | _, _, _ => none

namespace Linux

/-- Embeds `spawnCommandAndParse` (linux-utils.ts): `JSON.parse` the raw output and
treat it as an array of records; a parse failure throws
`JSONParsingSpawnerOutputError`.  The source performs no shape check — valid
JSON of the wrong shape would surface as untyped JavaScript breakage later,
modelled by `Err.TypeMismatch`. -/
def spawnCommandAndParse {α : Type} (decode : JVal → Option α) (rawOutput : String) :
    Except Err (List α) :=
  match jsonParse rawOutput with
  | none => .error .JSONParsingSpawnerOutput
  | some (JVal.jarr els) =>
    match els.mapM decode with
    | some ts => .ok ts
    | none => .error .TypeMismatch
  | some _ => .error .TypeMismatch

/-- Embeds `mergeRoutesWithAddresseses` (linux-utils.ts): join routes to addresses
on `ifname = dev` and emit one merged record per `addr_info` entry, the
spread `{...ipRoute, ...ipAddr, ...ipAddrInfo}`. -/
def mergeRoutesWithAddresseses (ipRoutes : List IpRoute) (ipAddrs : List IpAddr) :
    List LinuxInterface :=
  ipRoutes.flatMap (fun ipRoute =>
    (ipAddrs.filter (fun ipAddr => ipAddr.ifname == ipRoute.dev)).flatMap (fun ipAddrComplete =>
      ipAddrComplete.addr_info.map (fun ipAddrInfo =>
        { dst := ipRoute.dst, gateway := ipRoute.gateway, dev := ipRoute.dev,
          protocol := ipRoute.protocol, metric := ipRoute.metric,
          ifname := ipAddrComplete.ifname, operstate := ipAddrComplete.operstate,
          family := ipAddrInfo.family, local_ := ipAddrInfo.local_,
          prefixlen := ipAddrInfo.prefixlen })))

/-- The two filters of `defaultInterfaceByAddressFamily` (linux-utils.ts):
keep candidates of the requested family, then those in operational state
`"UP"`. -/
def filteredInterfaces (interfaces : List LinuxInterface) (addressFamily : AddressFamily) :
    List LinuxInterface :=
  (interfaces.filter (fun int => int.family == unixAddressFamily addressFamily)).filter
    (fun int => int.operstate == linuxOperstateUp)

/-- Embeds `defaultInterfaceByAddressFamily` (linux-utils.ts): filter by family and
state — an empty result throws `DefaultInterfaceNotFoundError` — then reduce
to the candidate with the lowest metric (`prev.metric < curr.metric ? prev :
curr`). -/
def defaultInterfaceByAddressFamily (interfaces : List LinuxInterface)
    (addressFamily : AddressFamily) : Except Err LinuxInterface :=
  match filteredInterfaces interfaces addressFamily with
  | [] => .error .DefaultInterfaceNotFound
  | x :: xs =>
    .ok (xs.foldl (fun prev curr => if prev.metric < curr.metric then prev else curr) x)

/-- Sequence the per-device detail queries: `Promise.all` fails as soon as
any one fails and no partial result is merged. -/
def collectAll {α : Type} : List (Except Err (List α)) → Except Err (List (List α))
  | [] => .ok []
  | .error e :: _ => .error e
  | .ok a :: rest =>
    match collectAll rest with
    | .error e => .error e
    | .ok as => .ok (a :: as)

/-- Embeds `LinuxPlatform.defaultGateway` (linux-platform.ts): parse the default
routes (`DefaultGatewayNotAvailableError` when none), fetch and parse the
address details of every routed device, merge, select the default interface,
and rename its fields into the public record. -/
def defaultGateway (routeOutput : String) (detailOutput : String → String)
    (addressFamily : AddressFamily) : Except Err NetworkDefaultGateway :=
  match spawnCommandAndParse decodeIpRoute routeOutput with
  | .error e => .error e
  | .ok ipRoutes =>
    if ipRoutes.length = 0 then .error .DefaultGatewayNotAvailable
    else
      match collectAll (ipRoutes.map (fun r =>
          spawnCommandAndParse decodeIpAddr (detailOutput r.dev))) with
      | .error e => .error e
      | .ok addrLists =>
        match defaultInterfaceByAddressFamily
            (mergeRoutesWithAddresseses ipRoutes addrLists.flatten) addressFamily with
        | .error e => .error e
        | .ok defaultInterface =>
          .ok { ip := defaultInterface.local_, gateway := defaultInterface.gateway,
                interface := defaultInterface.ifname,
                prefixLength := some defaultInterface.prefixlen }

end Linux

/-! ## Windows parser (windows-utils.ts and windows-platform.ts)

`defaultGateway` receives the trimmed output of the `Get-NetRoute` query and
of the `Get-NetIPAddress` query. -/

/-- Embeds `NetRoute` (windows-utils.ts). -/
structure NetRoute where
  ifIndex : Rat
  NextHop : String
  InterfaceMetric : Rat
  deriving DecidableEq, Repr

/-- Embeds `NetIpAddress` (windows-utils.ts). -/
structure NetIpAddress where
  ifIndex : Rat
  IPAddress : String
  InterfaceAlias : String
  AddressFamily : Rat
  PrefixLength : Rat
  AddressState : Rat
  deriving DecidableEq, Repr

/-- Embeds `WindowsInterface` (windows-utils.ts): `NetRoute & NetIpAddress`. -/
structure WindowsInterface where
  ifIndex : Rat
  NextHop : String
  InterfaceMetric : Rat
  IPAddress : String
  InterfaceAlias : String
  AddressFamily : Rat
  PrefixLength : Rat
  AddressState : Rat
  deriving DecidableEq, Repr

/-- Embeds `WindowsAddressFamily` (windows-utils.ts): the numeric family codes of
`Get-NetIPAddress` output. -/
def windowsAddressFamilyCode : AddressFamily → Rat
  | AddressFamily.IPv4 => 2
  | AddressFamily.IPv6 => 23

/-- Embeds `WindowsAddressState.Preferred` (windows-utils.ts). -/
def windowsAddressStatePreferred : Rat := 4

/-- Decode one parsed route object into a `NetRoute`. -/
def decodeNetRoute (j : JVal) : Option NetRoute :=
  match jGet j "ifIndex" >>= jNum?, jGet j "NextHop" >>= jStr?,
      jGet j "InterfaceMetric" >>= jNum? with
  | some ifIndex, some nextHop, some metric =>
    some { ifIndex := ifIndex, NextHop := nextHop, InterfaceMetric := metric }
  | _, _, _ => none

/-- Decode one parsed address object into a `NetIpAddress`. -/
def decodeNetIpAddress (j : JVal) : Option NetIpAddress :=
  match jGet j "ifIndex" >>= jNum?, jGet j "IPAddress" >>= jStr?,
      jGet j "InterfaceAlias" >>= jStr?, jGet j "AddressFamily" >>= jNum?,
      jGet j "PrefixLength" >>= jNum?, jGet j "AddressState" >>= jNum? with
  | some ifIndex, some ip, some alias0, some family, some prefixLength, some state =>
    some { ifIndex := ifIndex, IPAddress := ip, InterfaceAlias := alias0,
           AddressFamily := family, PrefixLength := prefixLength, AddressState := state }
  | _, _, _, _, _, _ => none

namespace Windows

/-- Embeds `spawnCommandAndParse` (windows-utils.ts): empty output throws
`DefaultGatewayNotAvailableError` (the JavaScript falsy check `!rawOutput`);
then `JSON.parse`, wrapping a single object into a one-element array.  As on
Linux, wrong-shaped valid JSON is modelled by `Err.TypeMismatch`. -/
def spawnCommandAndParse {α : Type} (decode : JVal → Option α) (rawOutput : String) :
    Except Err (List α) :=
  if rawOutput = "" then .error .DefaultGatewayNotAvailable
  else
    match jsonParse rawOutput with
    | none => .error .JSONParsingSpawnerOutput
    | some j =>
      match (match j with | JVal.jarr els => els | v => [v]).mapM decode with
      | some ts => .ok ts
      | none => .error .TypeMismatch

/-- The merge `{...route, ...address}` of windows-platform.ts (every
`NetIpAddress` field, including `ifIndex`, overrides the route's). -/
def mergeRouteWithAddress (route : NetRoute) (address : NetIpAddress) : WindowsInterface :=
  { ifIndex := address.ifIndex, NextHop := route.NextHop,
    InterfaceMetric := route.InterfaceMetric, IPAddress := address.IPAddress,
    InterfaceAlias := address.InterfaceAlias, AddressFamily := address.AddressFamily,
    PrefixLength := address.PrefixLength, AddressState := address.AddressState }

/-- The family filter of `defaultInterfaceByAddressFamily`
(windows-utils.ts). -/
def familyInterfaces (interfaces : List WindowsInterface) (addressFamily : AddressFamily) :
    List WindowsInterface :=
  interfaces.filter (fun int => int.AddressFamily == windowsAddressFamilyCode addressFamily)

/-- The state filter of `defaultInterfaceByAddressFamily`
(windows-utils.ts). -/
def activeInterfaces (interfaces : List WindowsInterface) (addressFamily : AddressFamily) :
    List WindowsInterface :=
  (familyInterfaces interfaces addressFamily).filter
    (fun int => int.AddressState == windowsAddressStatePreferred)

/-- Embeds `defaultInterfaceByAddressFamily` (windows-utils.ts): empty family
filter throws `DefaultInterfaceNotFoundError`; empty state filter throws
`NoAvailableNetworkError`; otherwise reduce to the lowest
`InterfaceMetric`. -/
def defaultInterfaceByAddressFamily (interfaces : List WindowsInterface)
    (addressFamily : AddressFamily) : Except Err WindowsInterface :=
  if (familyInterfaces interfaces addressFamily).length = 0 then
    .error .DefaultInterfaceNotFound
  else
    match activeInterfaces interfaces addressFamily with
    | [] => .error .NoAvailableNetwork
    | x :: xs =>
      .ok (xs.foldl
        (fun prev curr => if prev.InterfaceMetric < curr.InterfaceMetric then prev else curr) x)

/-- Embeds `WindowsPlatform.defaultGateway` (windows-platform.ts): parse both query
outputs, cross-join route rows to address rows on `ifIndex`, select the
default interface and rename its fields into the public record. -/
def defaultGateway (routeOutput : String) (addressOutput : String)
    (addressFamily : AddressFamily) : Except Err NetworkDefaultGateway :=
  match spawnCommandAndParse decodeNetRoute routeOutput with
  | .error e => .error e
  | .ok netRoutes =>
    match spawnCommandAndParse decodeNetIpAddress addressOutput with
    | .error e => .error e
    | .ok netIpAddresses =>
      match defaultInterfaceByAddressFamily
          (netRoutes.flatMap (fun route =>
            (netIpAddresses.filter (fun address => address.ifIndex == route.ifIndex)).map
              (fun address => mergeRouteWithAddress route address))) addressFamily with
      | .error e => .error e
      | .ok defaultInterface =>
        .ok { ip := defaultInterface.IPAddress, gateway := defaultInterface.NextHop,
              interface := defaultInterface.InterfaceAlias,
              prefixLength := some defaultInterface.PrefixLength }

end Windows

/-! ## macOS parser (macos-utils.ts and macos-platform.ts)

`defaultGateway` receives the trimmed output of `route -n get {-inet|-inet6}
default` and a function giving the trimmed output of `ifconfig <interface>`.
The row extraction spawns external `grep`/`awk` through the same spawner;
those two utilities are not part of the repository and are modelled from the
spec below. -/

/-- Whether `needle` is a leading run of `hay`. -/
def hasPre : List Char → List Char → Bool
  | _, [] => true
  | [], _ :: _ => false
  | h :: hs, n :: ns => h = n && hasPre hs ns

/-- Whether `needle` occurs contiguously inside `hay`. -/
def containsSub : List Char → List Char → Bool
  | [], needle => needle.isEmpty
  | h :: t, needle => hasPre (h :: t) needle || containsSub t needle

/-- JavaScript string-to-number coercion (the unary `+` of macos-utils.ts):
trim, empty means `0`, otherwise the whole string must be a numeric literal
(decimal with optional fraction/exponent, or a `0x`/`0o`/`0b` literal
without sign); `none` models a non-finite result (`NaN`, and the unreachable
`Infinity` literals are collapsed into it). -/
def jsStringToNumber (s : String) : Option Rat :=
  let cs := (jsTrim s).toList
  if cs.isEmpty then some 0
  else
    let radixDigits : Nat → (Char → Bool) → (Char → Nat) → List Char → Option Rat :=
      fun base isDigitC valC ds =>
        if ds.isEmpty || !(ds.all isDigitC) then none
        else some ((ds.foldl (fun acc c => acc * base + valC c) 0 : Nat) : Rat)
    match cs with
    | '0' :: 'x' :: ds => radixDigits 16 jsIsHexDigit hexDigitVal ds
    | '0' :: 'X' :: ds => radixDigits 16 jsIsHexDigit hexDigitVal ds
    | '0' :: 'o' :: ds => radixDigits 8 (fun c => '0' ≤ c && c ≤ '7') hexDigitVal ds
    | '0' :: 'O' :: ds => radixDigits 8 (fun c => '0' ≤ c && c ≤ '7') hexDigitVal ds
    | '0' :: 'b' :: ds => radixDigits 2 (fun c => c = '0' || c = '1') hexDigitVal ds
    | '0' :: 'B' :: ds => radixDigits 2 (fun c => c = '0' || c = '1') hexDigitVal ds
    | _ =>
      let (neg, cs1) : Bool × List Char :=
        match cs with
        | '-' :: r => (true, r)
        | '+' :: r => (false, r)
        | _ => (false, cs)
      let (ids, r1) := spanDigits cs1
      let (fds, r2) :=
        match r1 with
        | '.' :: rr => spanDigits rr
        | _ => ([], r1)
      if (ids ++ fds).isEmpty then none
      else
        let expRes : Option (Int × List Char) :=
          match r2 with
          | 'e' :: r | 'E' :: r =>
            let (esign, rr1) : Int × List Char :=
              match r with
              | '+' :: t => (1, t)
              | '-' :: t => (-1, t)
              | _ => (1, r)
            let (eds, rr2) := spanDigits rr1
            if eds.isEmpty then none else some (esign * (digitsVal eds : Int), rr2)
          | _ => some (0, r2)
        match expRes with
        | none => none
        | some (e, r3) =>
          if !r3.isEmpty then none
          else some (scientificToRat (digitsVal (ids ++ fds)) fds.length e neg)

namespace MacOS

/-- Modelled from the spec: the external `grep <key>` invocation of
`valueFromRowKey` — keep the input lines containing `key`; `grep` exits
non-zero when no line matches, which the spawner contract turns into a
failure; the spawner returns the output trimmed. -/
def grepSpawn (key input : String) : Except Err String :=
  let lines := (input.splitOn "\n").filter (fun line => containsSub line.toList key.toList)
  if lines.isEmpty then .error .SpawnFailure
  else .ok (jsTrim (String.intercalate "\n" lines))

/-- Modelled from the spec: the external `awk` second-field extraction of
`valueFromRowKey` — for every input line print its second whitespace-
separated field (an empty line when there is none); trimmed by the
spawner. -/
def awkSecondField (input : String) : String :=
  jsTrim (String.intercalate "\n" ((input.splitOn "\n").map (fun line =>
    match wsTokens [] line.toList with
    | _ :: second :: _ => second
    | _ => "")))

/-- Embeds `valueFromRowKey` (macos-utils.ts): filter rows with `grep key`, then
extract the value with `awk`. -/
def valueFromRowKey (input key : String) : Except Err String :=
  match grepSpawn key input with
  | .error e => .error e
  | .ok output => .ok (awkSecondField output)

/-- Embeds `DarwinInterfaceStatus.Active` (macos-utils.ts). -/
def darwinStatusActive : String := "active"

/-- Embeds `DarwinInterface` (macos-utils.ts). -/
structure DarwinInterface where
  inet : String
  prefixlen : Option Rat
  deriving DecidableEq, Repr

/-- Embeds `prefixLengthAndIpByAddressFamily` (macos-utils.ts): check the interface
status is `active` (else `DefaultInterfaceNotFoundError`), grep the row of
the requested family (`"inet "` with a space for IPv4, to avoid the IPv6
row), extract the device IP, then the prefix length — computed from the
netmask for IPv4, read directly (string-to-number coercion) for IPv6.  The
JavaScript falsy checks `!inet`, `!netmask`, `!v6Prefixlen` also reject the
empty string. -/
def prefixLengthAndIpByAddressFamily (outputInterface : String)
    (addressFamily : AddressFamily) : Except Err DarwinInterface :=
  match valueFromRowKey outputInterface "status" with
  | .error e => .error e
  | .ok status =>
    if status ≠ darwinStatusActive then .error .DefaultInterfaceNotFound
    else
      let grepAddressFamily := if addressFamily = AddressFamily.IPv4 then "inet " else "inet6"
      match grepSpawn grepAddressFamily outputInterface with
      | .error e => .error e
      | .ok outputIPv =>
        match valueFromKey outputIPv (unixAddressFamily addressFamily) with
        | none => .error .DeviceIpNotFound
        | some inet =>
          if inet = "" then .error .DeviceIpNotFound
          else if addressFamily = AddressFamily.IPv4 then
            match valueFromKey outputIPv "netmask" with
            | none => .error .NetmaskNotFound
            | some netmask =>
              if netmask = "" then .error .NetmaskNotFound
              else
                match netmaskToPrefixLength netmask with
                | .error e => .error e
                | .ok p => .ok { inet := inet, prefixlen := some (p : Rat) }
          else
            match valueFromKey outputIPv "prefixlen" with
            | none => .error .PrefixLengthNotFound
            | some v6Prefixlen =>
              if v6Prefixlen = "" then .error .PrefixLengthNotFound
              else .ok { inet := inet, prefixlen := jsStringToNumber v6Prefixlen }

/-- Embeds `MacOSPlatform.defaultGateway` (macos-platform.ts): empty default-route
output throws `DefaultGatewayNotAvailableError` (the falsy check
`!outputDefaultRoute`); then extract the gateway and interface rows, fetch
the interface details, and assemble the public record. -/
def defaultGateway (outputDefaultRoute : String) (detailOutput : String → String)
    (addressFamily : AddressFamily) : Except Err NetworkDefaultGateway :=
  if outputDefaultRoute = "" then .error .DefaultGatewayNotAvailable
  else
    match valueFromRowKey outputDefaultRoute "gateway" with
    | .error e => .error e
    | .ok gateway =>
      match valueFromRowKey outputDefaultRoute "interface" with
      | .error e => .error e
      | .ok defaultInterface =>
        let outputInterface := detailOutput defaultInterface
        match prefixLengthAndIpByAddressFamily outputInterface addressFamily with
        | .error e => .error e
        | .ok d =>
          .ok { gateway := gateway, interface := defaultInterface, ip := d.inet,
                prefixLength := d.prefixlen }

end MacOS

/-! ## Popcount

An executable popcount, kernel-reducible, used to state what the binary
rendering of `netmaskToPrefixLength` computes; `natPopCount_eq_digits_count`
ties it to the mathematical bit count. -/

/-- Sum of the binary digits of `n`; the first argument is fuel. -/
def popCountAux : Nat → Nat → Nat
  | 0, _ => 0
  | fuel + 1, n => if n = 0 then 0 else popCountAux fuel (n / 2) + n % 2

/-- The number of set bits of a natural number. -/
def natPopCount (n : Nat) : Nat := popCountAux n n

/-- Count of `'1'` characters of a character list. -/
def countOnesList (l : List Char) : Nat := (l.filter (fun bit => bit == '1')).length

/-! ## Concrete check inputs -/

/-- A Linux candidate interface with the given device name, metric, family
marker and operational state (remaining fields fixed). -/
def mkCand (dev : String) (metric : Rat) (family operstate : String) : LinuxInterface :=
  { dst := some "default", gateway := "192.168.1.1", dev := dev, protocol := some "dhcp",
    metric := metric, ifname := dev, operstate := operstate, family := family,
    local_ := "192.168.1.15", prefixlen := 24 }

/-- A Windows candidate interface with the given alias, metric, numeric
address family and address state (remaining fields fixed). -/
def mkWinCand (alias0 : String) (metric famCode state : Rat) : WindowsInterface :=
  { ifIndex := 7, NextHop := "192.168.1.1", InterfaceMetric := metric,
    IPAddress := "192.168.1.10", InterfaceAlias := alias0, AddressFamily := famCode,
    PrefixLength := 24, AddressState := state }

/-- The spec's Linux synthetic default-route output: one route
`{dst:"default", gateway:"192.168.1.1", dev:"eth0", metric:100}`. -/
def c1RouteOutput : String :=
  "[\x7b\"dst\":\"default\",\"gateway\":\"192.168.1.1\",\"dev\":\"eth0\",\"metric\":100\x7d]"

/-- The spec's Linux synthetic address output for `eth0`: operstate `UP`, one
`inet` address `192.168.1.15/24`. -/
def c1AddrOutput : String :=
  "[\x7b\"ifname\":\"eth0\",\"operstate\":\"UP\",\"addr_info\":[\x7b\"family\":\"inet\",\"local\":\"192.168.1.15\",\"prefixlen\":24\x7d]\x7d]"

/-- A Linux default-route output used to probe prefix-length validation. -/
def c4RouteOutput : String :=
  "[\x7b\"dst\":\"default\",\"gateway\":\"10.0.0.1\",\"dev\":\"wlan0\",\"metric\":600\x7d]"

/-- A Linux address output whose `prefixlen` `33` is out of range for
IPv4. -/
def c4AddrOutput : String :=
  "[\x7b\"ifname\":\"wlan0\",\"operstate\":\"UP\",\"addr_info\":[\x7b\"family\":\"inet\",\"local\":\"10.0.0.2\",\"prefixlen\":33\x7d]\x7d]"

theorem countOnes_eq_countOnesList (s : String) : countOnes s = countOnesList s.toList := rfl

theorem natToBinaryAux_countOnes (fuel : Nat) : ∀ n : Nat, n ≤ fuel →
    countOnesList (natToBinaryAux fuel n) = popCountAux fuel n := by
  induction fuel with
  | zero =>
    intro n hn
    interval_cases n
    rfl
  | succ f ih =>
    intro n hn
    by_cases h0 : n = 0
    · subst h0; rfl
    · have hdiv : n / 2 ≤ f := by omega
      simp only [natToBinaryAux, popCountAux, if_neg h0, countOnesList, List.filter_append,
        List.length_append]
      rw [← countOnesList, ih (n / 2) hdiv]
      have hmod : n % 2 = 0 ∨ n % 2 = 1 := by omega
      rcases hmod with h | h <;> rw [h] <;> simp [h]

theorem countOnes_natToBinary (n : Nat) : countOnes (natToBinary n) = natPopCount n := by
  by_cases h0 : n = 0
  · subst h0; rfl
  · rw [countOnes_eq_countOnesList, natToBinary, if_neg h0]
    show countOnesList (natToBinaryAux n n) = natPopCount n
    exact natToBinaryAux_countOnes n n le_rfl

theorem countOnes_jsToStringBase2 (v : Int) :
    countOnes (jsToStringBase2 (JsNum.num v)) = natPopCount v.natAbs := by
  rw [jsToStringBase2]
  by_cases hv : v < 0
  · rw [if_pos hv, countOnes_eq_countOnesList]
    have : ("-" ++ natToBinary v.natAbs).toList = '-' :: (natToBinary v.natAbs).toList := rfl
    rw [this]
    show countOnesList ((natToBinary v.natAbs).toList) = natPopCount v.natAbs
    rw [← countOnes_eq_countOnesList, countOnes_natToBinary]
  · rw [if_neg hv, countOnes_natToBinary]

/-- The value `natPopCount n` is the count of `1`s among the binary digits. -/
theorem natPopCount_eq_digits_count (n : Nat) : natPopCount n = (Nat.digits 2 n).count 1 := by
  suffices h : ∀ fuel m : Nat, m ≤ fuel → popCountAux fuel m = (Nat.digits 2 m).count 1 from
    h n n le_rfl
  intro fuel
  induction fuel with
  | zero =>
    intro m hm
    interval_cases m
    simp [popCountAux]
  | succ f ih =>
    intro m hm
    by_cases h0 : m = 0
    · subst h0; simp [popCountAux]
    · have h2 : m / 2 ≤ f := by omega
      have hd : Nat.digits 2 m = m % 2 :: Nat.digits 2 (m / 2) :=
        Nat.digits_def' (by norm_num) (by omega)
      rw [popCountAux, if_neg h0, ih (m / 2) h2, hd, List.count_cons]
      have hmod : m % 2 = 0 ∨ m % 2 = 1 := by omega
      rcases hmod with h | h <;> rw [h] <;> simp

/-! ## The metric-minimizing reduce

Both selectors end with `reduce((prev, curr) => prev.metric < curr.metric ?
prev : curr)`.  `foldlMinSpec` characterizes this fold completely: either the
seed wins and is strictly below every later candidate, or some later
candidate `y` wins, in which case `y` is less-or-equal to the seed and to
everything before it and strictly below everything after it — so the fold
returns the LAST element attaining the minimum (the strict `<` moves the
choice on ties). -/

theorem foldlMinSpec {α β : Type} [LinearOrder β] (m : α → β) (x : α) (xs : List α) :
    (xs.foldl (fun p c => if m p < m c then p else c) x = x ∧ ∀ y ∈ xs, m x < m y) ∨
    (∃ ys y zs, xs = ys ++ y :: zs ∧
      xs.foldl (fun p c => if m p < m c then p else c) x = y ∧
      m y ≤ m x ∧ (∀ u ∈ ys, m y ≤ m u) ∧ (∀ v ∈ zs, m y < m v)) := by
  induction xs generalizing x with
  | nil =>
    left
    exact ⟨rfl, by simp⟩
  | cons c cs ih =>
    simp only [List.foldl_cons]
    by_cases hlt : m x < m c
    · rw [if_pos hlt]
      rcases ih x with ⟨hr, hall⟩ | ⟨ys, y, zs, hcs, hr, hle, hys, hzs⟩
      · left
        refine ⟨hr, ?_⟩
        intro y hy
        rcases List.mem_cons.mp hy with h | h
        · exact h ▸ hlt
        · exact hall y h
      · right
        refine ⟨c :: ys, y, zs, by rw [hcs, List.cons_append], hr, hle, ?_, hzs⟩
        intro u hu
        rcases List.mem_cons.mp hu with h | h
        · exact h ▸ le_trans hle (le_of_lt hlt)
        · exact hys u h
    · rw [if_neg hlt]
      have hcx : m c ≤ m x := le_of_not_lt hlt
      rcases ih c with ⟨hr, hall⟩ | ⟨ys, y, zs, hcs, hr, hley, hys, hzs⟩
      · right
        exact ⟨[], c, cs, rfl, hr, hcx, by simp, hall⟩
      · right
        refine ⟨c :: ys, y, zs, by rw [hcs, List.cons_append], hr, le_trans hley hcx, ?_, hzs⟩
        intro u hu
        rcases List.mem_cons.mp hu with h | h
        · exact h ▸ hley
        · exact hys u h

theorem foldlMin_mem {α β : Type} [LinearOrder β] (m : α → β) (x : α) (xs : List α) :
    xs.foldl (fun p c => if m p < m c then p else c) x ∈ x :: xs := by
  rcases foldlMinSpec m x xs with ⟨hr, _⟩ | ⟨ys, y, zs, hcs, hr, _, _, _⟩
  · rw [hr]; exact List.mem_cons_self x xs
  · rw [hr, hcs]
    exact List.mem_cons_of_mem x (by simp)

theorem foldlMin_le {α β : Type} [LinearOrder β] (m : α → β) (x : α) (xs : List α) :
    ∀ y ∈ x :: xs, m (xs.foldl (fun p c => if m p < m c then p else c) x) ≤ m y := by
  intro y hy
  rcases foldlMinSpec m x xs with ⟨hr, hall⟩ | ⟨ys, y0, zs, hcs, hr, hle, hys, hzs⟩
  · rw [hr]
    rcases List.mem_cons.mp hy with h | h
    · exact h ▸ le_rfl
    · exact le_of_lt (hall y h)
  · rw [hr]
    rcases List.mem_cons.mp hy with h | h
    · exact h ▸ hle
    · rw [hcs] at h
      rcases List.mem_append.mp h with h | h
      · exact hys y h
      · rcases List.mem_cons.mp h with h | h
        · exact h ▸ le_rfl
        · exact le_of_lt (hzs y h)

/-- On ties the fold keeps the later candidate: whenever `y` is a candidate
whose metric equals the winner's, the winner sits at `y`'s position or after
it. -/
theorem foldlMin_last {α β : Type} [LinearOrder β] (m : α → β) (x : α) (xs : List α)
    (l1 l2 : List α) (y : α)
    (hdec : x :: xs = l1 ++ y :: l2)
    (hm : m y = m (xs.foldl (fun p c => if m p < m c then p else c) x)) :
    xs.foldl (fun p c => if m p < m c then p else c) x ∈ y :: l2 := by
  rcases foldlMinSpec m x xs with ⟨hr, hall⟩ | ⟨ys, y0, zs, hcs, hr, hle, hys, hzs⟩
  · rw [hr] at hm ⊢
    cases l1 with
    | nil =>
      simp only [List.nil_append] at hdec
      rw [List.cons_eq_cons] at hdec
      exact hdec.1 ▸ List.mem_cons_self y l2
    | cons a l1t =>
      rw [List.cons_append, List.cons_eq_cons] at hdec
      have hyxs : y ∈ xs := by
        rw [hdec.2]
        exact List.mem_append_right l1t (List.mem_cons_self y l2)
      exact absurd hm (ne_of_gt (hall y hyxs))
  · rw [hr] at hm ⊢
    have heq : l1 ++ y :: l2 = (x :: ys) ++ y0 :: zs := by
      rw [← hdec, hcs, List.cons_append]
    rcases List.append_eq_append_iff.mp heq with ⟨t, _, hb⟩ | ⟨t, _, hd⟩
    · rw [hb]
      exact List.mem_append_right t (List.mem_cons_self y0 zs)
    · cases t with
      | nil =>
        simp only [List.nil_append] at hd
        rw [List.cons_eq_cons] at hd
        exact hd.1 ▸ List.mem_cons_self y l2
      | cons b tt =>
        rw [List.cons_append, List.cons_eq_cons] at hd
        have hyzs : y ∈ zs := by
          rw [hd.2]
          exact List.mem_append_right tt (List.mem_cons_self y l2)
        exact absurd hm (ne_of_gt (hzs y hyzs))


/-! ## Selector lemmas -/

theorem mem_linuxFiltered {y : LinuxInterface} {ints : List LinuxInterface}
    {af : AddressFamily} :
    y ∈ Linux.filteredInterfaces ints af ↔
      y ∈ ints ∧ y.family = unixAddressFamily af ∧ y.operstate = linuxOperstateUp := by
  rw [Linux.filteredInterfaces, List.mem_filter, List.mem_filter]
  simp only [beq_iff_eq]
  tauto

theorem linuxSelect_ok {ints : List LinuxInterface} {af : AddressFamily}
    {r : LinuxInterface} (h : Linux.defaultInterfaceByAddressFamily ints af = .ok r) :
    r ∈ Linux.filteredInterfaces ints af ∧
      ∀ y ∈ Linux.filteredInterfaces ints af, r.metric ≤ y.metric := by
  unfold Linux.defaultInterfaceByAddressFamily at h
  split at h
  · exact absurd h (by simp)
  · next x xs hf =>
    simp only [Except.ok.injEq] at h
    subst h
    rw [hf]
    exact ⟨foldlMin_mem LinuxInterface.metric x xs, foldlMin_le LinuxInterface.metric x xs⟩

theorem linuxSelect_last_tie {ints : List LinuxInterface} {af : AddressFamily}
    {r y : LinuxInterface} {l1 l2 : List LinuxInterface}
    (h : Linux.defaultInterfaceByAddressFamily ints af = .ok r)
    (hdec : Linux.filteredInterfaces ints af = l1 ++ y :: l2)
    (hm : y.metric = r.metric) : r ∈ y :: l2 := by
  unfold Linux.defaultInterfaceByAddressFamily at h
  split at h
  · exact absurd h (by simp)
  · next x xs hf =>
    simp only [Except.ok.injEq] at h
    subst h
    rw [hf] at hdec
    exact foldlMin_last LinuxInterface.metric x xs l1 l2 y hdec hm

theorem linuxSelect_state_empty {ints : List LinuxInterface} {af : AddressFamily}
    (h : ∀ i ∈ ints, i.family = unixAddressFamily af → i.operstate ≠ linuxOperstateUp) :
    Linux.defaultInterfaceByAddressFamily ints af = .error .DefaultInterfaceNotFound := by
  have hf : Linux.filteredInterfaces ints af = [] := by
    rw [Linux.filteredInterfaces, List.filter_eq_nil_iff]
    intro a ha
    rw [List.mem_filter] at ha
    have hfam : a.family = unixAddressFamily af := by
      have := ha.2
      simpa using this
    simpa using h a ha.1 hfam
  unfold Linux.defaultInterfaceByAddressFamily
  rw [hf]

theorem mem_windowsFamily {y : WindowsInterface} {ints : List WindowsInterface}
    {af : AddressFamily} :
    y ∈ Windows.familyInterfaces ints af ↔
      y ∈ ints ∧ y.AddressFamily = windowsAddressFamilyCode af := by
  simp [Windows.familyInterfaces, List.mem_filter]

theorem mem_windowsActive {y : WindowsInterface} {ints : List WindowsInterface}
    {af : AddressFamily} :
    y ∈ Windows.activeInterfaces ints af ↔
      y ∈ ints ∧ y.AddressFamily = windowsAddressFamilyCode af ∧
        y.AddressState = windowsAddressStatePreferred := by
  rw [Windows.activeInterfaces, Windows.familyInterfaces, List.mem_filter, List.mem_filter]
  simp only [beq_iff_eq]
  tauto

theorem windowsSelect_ok {ints : List WindowsInterface} {af : AddressFamily}
    {r : WindowsInterface} (h : Windows.defaultInterfaceByAddressFamily ints af = .ok r) :
    r ∈ Windows.activeInterfaces ints af ∧
      ∀ y ∈ Windows.activeInterfaces ints af, r.InterfaceMetric ≤ y.InterfaceMetric := by
  unfold Windows.defaultInterfaceByAddressFamily at h
  split at h
  · exact absurd h (by simp)
  · split at h
    · exact absurd h (by simp)
    · next x xs hf =>
      simp only [Except.ok.injEq] at h
      subst h
      rw [hf]
      exact ⟨foldlMin_mem WindowsInterface.InterfaceMetric x xs,
        foldlMin_le WindowsInterface.InterfaceMetric x xs⟩

theorem windowsSelect_last_tie {ints : List WindowsInterface} {af : AddressFamily}
    {r y : WindowsInterface} {l1 l2 : List WindowsInterface}
    (h : Windows.defaultInterfaceByAddressFamily ints af = .ok r)
    (hdec : Windows.activeInterfaces ints af = l1 ++ y :: l2)
    (hm : y.InterfaceMetric = r.InterfaceMetric) : r ∈ y :: l2 := by
  unfold Windows.defaultInterfaceByAddressFamily at h
  split at h
  · exact absurd h (by simp)
  · split at h
    · exact absurd h (by simp)
    · next x xs hf =>
      simp only [Except.ok.injEq] at h
      subst h
      rw [hf] at hdec
      exact foldlMin_last WindowsInterface.InterfaceMetric x xs l1 l2 y hdec hm

theorem windowsSelect_no_available {ints : List WindowsInterface} {af : AddressFamily}
    (hfam : ∃ i ∈ ints, i.AddressFamily = windowsAddressFamilyCode af)
    (hstate : ∀ i ∈ ints, i.AddressFamily = windowsAddressFamilyCode af →
      i.AddressState ≠ windowsAddressStatePreferred) :
    Windows.defaultInterfaceByAddressFamily ints af = .error .NoAvailableNetwork := by
  obtain ⟨i, hi, hif⟩ := hfam
  have hne : (Windows.familyInterfaces ints af).length ≠ 0 := by
    intro hlen
    have hnil := List.length_eq_zero.mp hlen
    have : i ∈ Windows.familyInterfaces ints af := mem_windowsFamily.mpr ⟨hi, hif⟩
    rw [hnil] at this
    exact absurd this (List.not_mem_nil i)
  have hact : Windows.activeInterfaces ints af = [] := by
    rw [Windows.activeInterfaces, List.filter_eq_nil_iff]
    intro a ha
    rw [mem_windowsFamily] at ha
    simpa using hstate a ha.1 ha.2
  unfold Windows.defaultInterfaceByAddressFamily
  rw [if_neg hne, hact]

theorem linux_merge_prefixlen {x : LinuxInterface} {rs : List IpRoute} {as0 : List IpAddr}
    (h : x ∈ Linux.mergeRoutesWithAddresseses rs as0) :
    ∃ a ∈ as0, ∃ info ∈ a.addr_info, x.prefixlen = info.prefixlen := by
  simp only [Linux.mergeRoutesWithAddresseses, List.mem_flatMap, List.mem_filter,
    List.mem_map] at h
  obtain ⟨r, hr, a, ⟨ha, _⟩, i, hi, hx⟩ := h
  exact ⟨a, ha, i, hi, by rw [← hx]⟩

theorem windows_merge_prefixlen {x : WindowsInterface} {rs : List NetRoute}
    {as0 : List NetIpAddress}
    (h : x ∈ rs.flatMap (fun route =>
      (as0.filter (fun address => address.ifIndex == route.ifIndex)).map
        (fun address => Windows.mergeRouteWithAddress route address))) :
    ∃ a ∈ as0, x.PrefixLength = a.PrefixLength := by
  simp only [List.mem_flatMap, List.mem_filter, List.mem_map] at h
  obtain ⟨r, hr, a, ⟨ha, _⟩, hx⟩ := h
  refine ⟨a, ha, ?_⟩
  rw [← hx]
  rfl

/-! ## The claims -/

/-- C1: Linux end-to-end resolution on the spec's synthetic fixtures: with a
spawner whose default-route output is one route `{dst:"default",
gateway:"192.168.1.1", dev:"eth0", metric:100}` and whose interface-detail
output for `eth0` is one record `{ifname:"eth0", operstate:"UP",
addr_info:[{family:"inet", local:"192.168.1.15", prefixlen:24}]}`,
`LinuxPlatform.defaultGateway(IPv4)` returns exactly `{ ip: "192.168.1.15",
gateway: "192.168.1.1", interface: "eth0", prefixLength: 24 }`. -/
theorem c1_linux_end_to_end_fixture :
    Linux.defaultGateway c1RouteOutput (fun dev => if dev = "eth0" then c1AddrOutput else "")
      AddressFamily.IPv4 =
    .ok { ip := "192.168.1.15", gateway := "192.168.1.1", interface := "eth0",
          prefixLength := some 24 } := by decide

/-- C2 counterexample: two usable IPv4 candidates sharing the minimal metric
5 — the claim says the FIRST one in list order is selected, but the selector
returns the second one. -/
theorem c2_tie_counterexample :
    Linux.defaultInterfaceByAddressFamily
        [mkCand "eth0" 5 "inet" "UP", mkCand "eth1" 5 "inet" "UP"] AddressFamily.IPv4 =
      .ok (mkCand "eth1" 5 "inet" "UP") ∧
    mkCand "eth1" 5 "inet" "UP" ≠ mkCand "eth0" 5 "inet" "UP" := by decide

/-- C2 (amended): for every surviving candidate list the selected candidate
has a metric less-or-equal to every survivor's (Linux and Windows); two
usable same-family candidates with metrics 10 and 5 yield the metric-5 one
in either order; and when several candidates share the minimal metric the
LAST one in list order is selected (the strict less-than keeps the earlier
candidate only when strictly smaller). -/
theorem c2_selector_minimal_and_last_tie :
    (∀ (ints : List LinuxInterface) (af : AddressFamily) (r : LinuxInterface),
      Linux.defaultInterfaceByAddressFamily ints af = .ok r →
      ∀ y ∈ Linux.filteredInterfaces ints af, r.metric ≤ y.metric) ∧
    (∀ (ints : List WindowsInterface) (af : AddressFamily) (r : WindowsInterface),
      Windows.defaultInterfaceByAddressFamily ints af = .ok r →
      ∀ y ∈ Windows.activeInterfaces ints af, r.InterfaceMetric ≤ y.InterfaceMetric) ∧
    (∀ a b : LinuxInterface, a.family = "inet" → b.family = "inet" →
      a.operstate = "UP" → b.operstate = "UP" → a.metric = 10 → b.metric = 5 →
      Linux.defaultInterfaceByAddressFamily [a, b] AddressFamily.IPv4 = .ok b ∧
      Linux.defaultInterfaceByAddressFamily [b, a] AddressFamily.IPv4 = .ok b) ∧
    (∀ (ints : List LinuxInterface) (af : AddressFamily) (r y : LinuxInterface)
        (l1 l2 : List LinuxInterface),
      Linux.defaultInterfaceByAddressFamily ints af = .ok r →
      Linux.filteredInterfaces ints af = l1 ++ y :: l2 → y.metric = r.metric →
      r ∈ y :: l2) ∧
    (∀ (ints : List WindowsInterface) (af : AddressFamily) (r y : WindowsInterface)
        (l1 l2 : List WindowsInterface),
      Windows.defaultInterfaceByAddressFamily ints af = .ok r →
      Windows.activeInterfaces ints af = l1 ++ y :: l2 →
      y.InterfaceMetric = r.InterfaceMetric → r ∈ y :: l2) := by
  refine ⟨fun ints af r h => (linuxSelect_ok h).2,
    fun ints af r h => (windowsSelect_ok h).2, ?_,
    fun ints af r y l1 l2 h hd hm => linuxSelect_last_tie h hd hm,
    fun ints af r y l1 l2 h hd hm => windowsSelect_last_tie h hd hm⟩
  intro a b hfa hfb hsa hsb hma hmb
  have hfil1 : Linux.filteredInterfaces [a, b] AddressFamily.IPv4 = [a, b] := by
    simp [Linux.filteredInterfaces, unixAddressFamily, linuxOperstateUp, List.filter,
      hfa, hfb, hsa, hsb]
  have hfil2 : Linux.filteredInterfaces [b, a] AddressFamily.IPv4 = [b, a] := by
    simp [Linux.filteredInterfaces, unixAddressFamily, linuxOperstateUp, List.filter,
      hfa, hfb, hsa, hsb]
  constructor
  · simp only [Linux.defaultInterfaceByAddressFamily, hfil1, List.foldl_cons, List.foldl_nil,
      hma, hmb]
    norm_num
  · simp only [Linux.defaultInterfaceByAddressFamily, hfil2, List.foldl_cons, List.foldl_nil,
      hma, hmb]
    norm_num

/-- C2 witness: the minimality, 10-versus-5 and tie clauses instantiated at
concrete candidate lists. -/
theorem c2_selector_minimal_and_last_tie_witness :
    ((mkCand "eth1" 5 "inet" "UP").metric ≤ (mkCand "eth0" 10 "inet" "UP").metric) ∧
    (Linux.defaultInterfaceByAddressFamily
        [mkCand "eth0" 10 "inet" "UP", mkCand "eth1" 5 "inet" "UP"] AddressFamily.IPv4 =
      .ok (mkCand "eth1" 5 "inet" "UP") ∧
     Linux.defaultInterfaceByAddressFamily
        [mkCand "eth1" 5 "inet" "UP", mkCand "eth0" 10 "inet" "UP"] AddressFamily.IPv4 =
      .ok (mkCand "eth1" 5 "inet" "UP")) ∧
    mkCand "wlan1" 7 "inet" "UP" ∈
      mkCand "wlan0" 7 "inet" "UP" :: [mkCand "wlan1" 7 "inet" "UP"] :=
  ⟨c2_selector_minimal_and_last_tie.1
      [mkCand "eth0" 10 "inet" "UP", mkCand "eth1" 5 "inet" "UP"] AddressFamily.IPv4
      (mkCand "eth1" 5 "inet" "UP") (by decide) (mkCand "eth0" 10 "inet" "UP") (by decide),
   c2_selector_minimal_and_last_tie.2.2.1
      (mkCand "eth0" 10 "inet" "UP") (mkCand "eth1" 5 "inet" "UP") rfl rfl rfl rfl rfl rfl,
   c2_selector_minimal_and_last_tie.2.2.2.1
      [mkCand "wlan0" 7 "inet" "UP", mkCand "wlan1" 7 "inet" "UP"] AddressFamily.IPv4
      (mkCand "wlan1" 7 "inet" "UP") (mkCand "wlan0" 7 "inet" "UP") []
      [mkCand "wlan1" 7 "inet" "UP"] (by decide) (by decide) rfl⟩

/-- C3 counterexample: on Linux a family-matching candidate list whose only
member is not `UP` fails with `DefaultInterfaceNotFoundError`, not with the
`NoAvailableNetworkError` the claim requires. -/
theorem c3_linux_state_error_counterexample :
    Linux.defaultInterfaceByAddressFamily [mkCand "eth0" 100 "inet" "DOWN"]
        AddressFamily.IPv4 = .error .DefaultInterfaceNotFound ∧
    Linux.defaultInterfaceByAddressFamily [mkCand "eth0" 100 "inet" "DOWN"]
        AddressFamily.IPv4 ≠ .error .NoAvailableNetwork := by decide

/-- C3 (amended): on Windows, whenever some candidate matches the requested
family but no family-matching candidate is `Preferred`, the selection fails
with `NoAvailableNetworkError`; on Linux the two filters are chained and the
same situation fails with `DefaultInterfaceNotFoundError`, the same error as
an empty family filter. -/
theorem c3_no_usable_state_errors :
    (∀ (ints : List WindowsInterface) (af : AddressFamily),
      (∃ i ∈ ints, i.AddressFamily = windowsAddressFamilyCode af) →
      (∀ i ∈ ints, i.AddressFamily = windowsAddressFamilyCode af →
        i.AddressState ≠ windowsAddressStatePreferred) →
      Windows.defaultInterfaceByAddressFamily ints af = .error .NoAvailableNetwork) ∧
    (∀ (ints : List LinuxInterface) (af : AddressFamily),
      (∀ i ∈ ints, i.family = unixAddressFamily af → i.operstate ≠ linuxOperstateUp) →
      Linux.defaultInterfaceByAddressFamily ints af = .error .DefaultInterfaceNotFound) :=
  ⟨fun _ _ hf hs => windowsSelect_no_available hf hs,
   fun _ _ hs => linuxSelect_state_empty hs⟩

/-- C3 witness: a Windows candidate in state `Deprecated` (3) and a Linux
candidate in state `DOWN`. -/
theorem c3_no_usable_state_errors_witness :
    Windows.defaultInterfaceByAddressFamily [mkWinCand "Ethernet" 10 2 3]
        AddressFamily.IPv4 = .error .NoAvailableNetwork ∧
    Linux.defaultInterfaceByAddressFamily [mkCand "eth2" 10 "inet" "DOWN"]
        AddressFamily.IPv4 = .error .DefaultInterfaceNotFound :=
  ⟨c3_no_usable_state_errors.1 [mkWinCand "Ethernet" 10 2 3] AddressFamily.IPv4
      ⟨mkWinCand "Ethernet" 10 2 3, by decide, by decide⟩ (by decide),
   c3_no_usable_state_errors.2 [mkCand "eth2" 10 "inet" "DOWN"] AddressFamily.IPv4 (by decide)⟩

/-- C4 counterexample: a Linux address record parsed with `prefixlen` 33 —
out of the IPv4 range — is not rejected: the call succeeds and returns 33
as-is. -/
theorem c4_out_of_range_counterexample :
    Linux.defaultGateway c4RouteOutput (fun dev => if dev = "wlan0" then c4AddrOutput else "")
      AddressFamily.IPv4 =
    .ok { ip := "10.0.0.2", gateway := "10.0.0.1", interface := "wlan0",
          prefixLength := some 33 } ∧ ¬ ((33 : Rat) ≤ 32) := by
  refine ⟨by decide, by norm_num⟩

/-- C4 (amended): only the macOS IPv4 netmask path bounds the prefix length
(its successful results are at most 32); on Linux and on Windows every
successful call returns the `prefixlen`/`PrefixLength` of one of the parsed
address records as-is, with no range validation or clamping. -/
theorem c4_prefixlength_passthrough :
    (∀ (routeOutput : String) (detailOutput : String → String) (af : AddressFamily)
        (g : NetworkDefaultGateway),
      Linux.defaultGateway routeOutput detailOutput af = .ok g →
      ∃ ipRoutes addrLists,
        Linux.spawnCommandAndParse decodeIpRoute routeOutput = .ok ipRoutes ∧
        Linux.collectAll (ipRoutes.map (fun r =>
          Linux.spawnCommandAndParse decodeIpAddr (detailOutput r.dev))) = .ok addrLists ∧
        ∃ a ∈ addrLists.flatten, ∃ info ∈ a.addr_info,
          g.prefixLength = some info.prefixlen) ∧
    (∀ (routeOutput addressOutput : String) (af : AddressFamily)
        (g : NetworkDefaultGateway),
      Windows.defaultGateway routeOutput addressOutput af = .ok g →
      ∃ netIpAddresses,
        Windows.spawnCommandAndParse decodeNetIpAddress addressOutput = .ok netIpAddresses ∧
        ∃ a ∈ netIpAddresses, g.prefixLength = some a.PrefixLength) ∧
    (∀ (s : String) (n : Nat), netmaskToPrefixLength s = .ok n → n ≤ 32) := by
  refine ⟨?_, ?_, ?_⟩
  · intro routeOutput detailOutput af g h
    unfold Linux.defaultGateway at h
    split at h
    · exact absurd h (by simp)
    · next ipRoutes hroutes =>
      split at h
      · exact absurd h (by simp)
      · split at h
        · exact absurd h (by simp)
        · next addrLists hcoll =>
          split at h
          · exact absurd h (by simp)
          · next d hsel =>
            simp only [Except.ok.injEq] at h
            subst h
            refine ⟨ipRoutes, addrLists, hroutes, hcoll, ?_⟩
            have hd := (linuxSelect_ok hsel).1
            rw [mem_linuxFiltered] at hd
            obtain ⟨a, ha, info, hi, hpre⟩ := linux_merge_prefixlen hd.1
            exact ⟨a, ha, info, hi, by simp [hpre]⟩
  · intro routeOutput addressOutput af g h
    unfold Windows.defaultGateway at h
    split at h
    · exact absurd h (by simp)
    · next netRoutes hroutes =>
      split at h
      · exact absurd h (by simp)
      · next netIpAddresses haddrs =>
        split at h
        · exact absurd h (by simp)
        · next d hsel =>
          simp only [Except.ok.injEq] at h
          subst h
          refine ⟨netIpAddresses, haddrs, ?_⟩
          have hd := (windowsSelect_ok hsel).1
          rw [mem_windowsActive] at hd
          obtain ⟨a, ha, hpre⟩ := windows_merge_prefixlen hd.1
          exact ⟨a, ha, by simp [hpre]⟩
  · intro s n h
    simp only [netmaskToPrefixLength] at h
    split at h
    · exact absurd h (by simp)
    · next hgt =>
      simp only [Except.ok.injEq] at h
      omega

/-- C4 witness: the passthrough clause instantiated at the out-of-range
fixture and the macOS bound instantiated at a netmask with 16 set bits. -/
theorem c4_prefixlength_passthrough_witness :
    (∃ ipRoutes addrLists,
      Linux.spawnCommandAndParse decodeIpRoute c4RouteOutput = .ok ipRoutes ∧
      Linux.collectAll (ipRoutes.map (fun r =>
        Linux.spawnCommandAndParse decodeIpAddr
          ((fun dev => if dev = "wlan0" then c4AddrOutput else "") r.dev))) = .ok addrLists ∧
      ∃ a ∈ addrLists.flatten, ∃ info ∈ a.addr_info,
        ({ ip := "10.0.0.2", gateway := "10.0.0.1", interface := "wlan0",
           prefixLength := some 33 } : NetworkDefaultGateway).prefixLength =
          some info.prefixlen) ∧
    (16 : Nat) ≤ 32 :=
  ⟨c4_prefixlength_passthrough.1 c4RouteOutput
      (fun dev => if dev = "wlan0" then c4AddrOutput else "") AddressFamily.IPv4
      { ip := "10.0.0.2", gateway := "10.0.0.1", interface := "wlan0",
        prefixLength := some 33 } (by decide),
   c4_prefixlength_passthrough.2.2 "FFFF0000" 16 (by decide)⟩

/-- C5 counterexample: `"FFFFFFFFFFFFFFFF"` denotes 2^64 - 1, whose
hexadecimal value has 64 set bits, yet the function does not fail:
`parseInt` rounds to the double 2^64, whose binary rendering has a single
`'1'`, so the function returns 1. -/
theorem c5_double_rounding_counterexample :
    jsParseIntHexExact "FFFFFFFFFFFFFFFF" = some 18446744073709551615 ∧
    32 < natPopCount (18446744073709551615 : Int).natAbs ∧
    netmaskToPrefixLength "FFFFFFFFFFFFFFFF" = .ok 1 ∧
    netmaskToPrefixLength "FFFFFFFFFFFFFFFF" ≠ .error .PrefixLengthNotValid := by decide

/-- C5 (amended): `netmaskToPrefixLength` is a pure function of its input:
`"FFFFFF00"` maps to 24, `"FFFFFFFF"` to 32, and every netmask whose PARSED
value — the hexadecimal value after `parseInt` rounds it to the nearest
IEEE-754 double — has more than 32 set bits fails with the "prefix length
not valid" error.  (A netmask whose exact value has more than 32 set bits
may instead round to a value with few set bits and return that count.) -/
theorem c5_netmask_conversion :
    netmaskToPrefixLength "FFFFFF00" = .ok 24 ∧
    netmaskToPrefixLength "FFFFFFFF" = .ok 32 ∧
    (∀ (s : String) (v : Int), jsParseIntHex s = JsNum.num v → 32 < natPopCount v.natAbs →
      netmaskToPrefixLength s = .error .PrefixLengthNotValid) := by
  refine ⟨by decide, by decide, ?_⟩
  intro s v hp hc
  simp only [netmaskToPrefixLength, hp, countOnes_jsToStringBase2]
  rw [if_pos hc]

/-- C5 witness: `"3FFFFFFFF"` parses (exactly, being far below 2^53) to a
value with 34 set bits and is rejected. -/
theorem c5_netmask_conversion_witness :
    jsParseIntHex "3FFFFFFFF" = JsNum.num 17179869183 ∧
    32 < natPopCount (17179869183 : Int).natAbs ∧
    netmaskToPrefixLength "3FFFFFFFF" = .error .PrefixLengthNotValid :=
  ⟨by decide, by decide,
   c5_netmask_conversion.2.2 "3FFFFFFFF" 17179869183 (by decide) (by decide)⟩

/-- C6 counterexample: on Linux an empty default-route output is a JSON
parse failure (`JSONParsingSpawnerOutputError`), not the
`DefaultGatewayNotAvailableError` the claim requires on every platform. -/
theorem c6_empty_output_counterexample :
    Linux.defaultGateway "" (fun _ => "") AddressFamily.IPv4 =
      .error .JSONParsingSpawnerOutput ∧
    Linux.defaultGateway "" (fun _ => "") AddressFamily.IPv4 ≠
      .error .DefaultGatewayNotAvailable := by decide

/-- C6 (amended): on macOS and Windows an empty trimmed default-route output
fails with `DefaultGatewayNotAvailableError`; on Linux an empty output is a
JSON parse failure (`JSONParsingSpawnerOutputError`) and the
gateway-not-available error arises when the output parses to an empty route
array (`"[]"`). -/
theorem c6_empty_route_output_behaviour :
    (∀ (detailOutput : String → String) (af : AddressFamily),
      MacOS.defaultGateway "" detailOutput af = .error .DefaultGatewayNotAvailable) ∧
    (∀ (addressOutput : String) (af : AddressFamily),
      Windows.defaultGateway "" addressOutput af = .error .DefaultGatewayNotAvailable) ∧
    (∀ (detailOutput : String → String) (af : AddressFamily),
      Linux.defaultGateway "" detailOutput af = .error .JSONParsingSpawnerOutput) ∧
    (∀ (detailOutput : String → String) (af : AddressFamily),
      Linux.defaultGateway "[]" detailOutput af = .error .DefaultGatewayNotAvailable) :=
  ⟨fun _ _ => rfl, fun _ _ => rfl, fun _ _ => rfl, fun _ _ => rfl⟩

/-- C7: `valueFromKey` on the spec's `ifconfig` line yields
`"192.168.1.15"` for key `"inet"` and `"0xffffff00"` for key `"netmask"`;
for every input in which the key token is absent it yields `none` — being a
total function, it never throws. -/
theorem c7_value_from_key_extraction :
    valueFromKey "   inet 192.168.1.15 netmask 0xffffff00 broadcast 192.168.1.255" "inet" =
      some "192.168.1.15" ∧
    valueFromKey "   inet 192.168.1.15 netmask 0xffffff00 broadcast 192.168.1.255" "netmask" =
      some "0xffffff00" ∧
    (∀ input key : String, key ∉ jsSplitWs input → valueFromKey input key = none) := by
  refine ⟨by decide, by decide, ?_⟩
  intro input key h
  have hidx : (jsSplitWs input).findIdx? (· == key) = none := by
    rw [List.findIdx?_eq_none_iff]
    intro x hx
    exact beq_eq_false_iff_ne.mpr (fun hxy => h (hxy ▸ hx))
  simp [valueFromKey, hidx]

/-- C7 witness: a key absent from the split parts yields `none`. -/
theorem c7_value_from_key_extraction_witness :
    "broadcast2" ∉ jsSplitWs "   inet 192.168.1.15" ∧
    valueFromKey "   inet 192.168.1.15" "broadcast2" = none :=
  ⟨by decide,
   c7_value_from_key_extraction.2.2 "   inet 192.168.1.15" "broadcast2" (by decide)⟩

/-- C8: a candidate whose state is not the usable one (Linux `operstate ≠
"UP"`, Windows `AddressState ≠ Preferred`) is never the returned result,
whatever its metric. -/
theorem c8_unusable_never_selected :
    (∀ (ints : List LinuxInterface) (af : AddressFamily) (r y : LinuxInterface),
      Linux.defaultInterfaceByAddressFamily ints af = .ok r → y ∈ ints →
      y.operstate ≠ linuxOperstateUp → r ≠ y) ∧
    (∀ (ints : List WindowsInterface) (af : AddressFamily) (r y : WindowsInterface),
      Windows.defaultInterfaceByAddressFamily ints af = .ok r → y ∈ ints →
      y.AddressState ≠ windowsAddressStatePreferred → r ≠ y) := by
  constructor
  · intro ints af r y h hy hstate heq
    have hr := (linuxSelect_ok h).1
    rw [mem_linuxFiltered] at hr
    exact hstate (heq ▸ hr.2.2)
  · intro ints af r y h hy hstate heq
    have hr := (windowsSelect_ok h).1
    rw [mem_windowsActive] at hr
    exact hstate (heq ▸ hr.2.2)

/-- C8 witness: a `DOWN` candidate with the strictly lowest metric is not
selected; the `UP` one is. -/
theorem c8_unusable_never_selected_witness :
    Linux.defaultInterfaceByAddressFamily
        [mkCand "eth0" 1 "inet" "DOWN", mkCand "eth1" 50 "inet" "UP"] AddressFamily.IPv4 =
      .ok (mkCand "eth1" 50 "inet" "UP") ∧
    mkCand "eth1" 50 "inet" "UP" ≠ mkCand "eth0" 1 "inet" "DOWN" :=
  ⟨by decide,
   c8_unusable_never_selected.1
      [mkCand "eth0" 1 "inet" "DOWN", mkCand "eth1" 50 "inet" "UP"] AddressFamily.IPv4
      (mkCand "eth1" 50 "inet" "UP") (mkCand "eth0" 1 "inet" "DOWN")
      (by decide) (by decide) (by decide)⟩

/-- C9: whenever the selector returns instead of throwing, the returned
record is an element of its input list, unmodified, its family marker equals
the requested family's and its state is the usable one. -/
theorem c9_selected_is_input_member :
    (∀ (ints : List LinuxInterface) (af : AddressFamily) (r : LinuxInterface),
      Linux.defaultInterfaceByAddressFamily ints af = .ok r →
      r ∈ ints ∧ r.family = unixAddressFamily af ∧ r.operstate = linuxOperstateUp) ∧
    (∀ (ints : List WindowsInterface) (af : AddressFamily) (r : WindowsInterface),
      Windows.defaultInterfaceByAddressFamily ints af = .ok r →
      r ∈ ints ∧ r.AddressFamily = windowsAddressFamilyCode af ∧
        r.AddressState = windowsAddressStatePreferred) := by
  constructor
  · intro ints af r h
    have hr := (linuxSelect_ok h).1
    rw [mem_linuxFiltered] at hr
    exact hr
  · intro ints af r h
    have hr := (windowsSelect_ok h).1
    rw [mem_windowsActive] at hr
    exact hr

/-- C9 witness: instantiated at a one-candidate Linux list. -/
theorem c9_selected_is_input_member_witness :
    mkCand "eth0" 4 "inet" "UP" ∈ [mkCand "eth0" 4 "inet" "UP"] ∧
    (mkCand "eth0" 4 "inet" "UP").family = unixAddressFamily AddressFamily.IPv4 ∧
    (mkCand "eth0" 4 "inet" "UP").operstate = linuxOperstateUp :=
  c9_selected_is_input_member.1 [mkCand "eth0" 4 "inet" "UP"] AddressFamily.IPv4
    (mkCand "eth0" 4 "inet" "UP") (by decide)

/-- C10 counterexample: `"20000000000001"` denotes 2^53 + 1, whose value has
2 set bits, yet the function returns 1: `parseInt` rounds 2^53 + 1 to the
double 2^53 (ties-to-even), whose binary rendering has a single `'1'`. -/
theorem c10_double_rounding_counterexample :
    jsParseIntHexExact "20000000000001" = some 9007199254740993 ∧
    natPopCount (9007199254740993 : Int).natAbs = 2 ∧
    netmaskToPrefixLength "20000000000001" = .ok 1 := by decide

/-- C10 (amended): `netmaskToPrefixLength` validates nothing but the bit
count, which it takes of the PARSED value — the hexadecimal value after
`parseInt` rounds it to the nearest IEEE-754 double (the identity below
2^53): a non-contiguous mask such as `"F0F0F0F0"` yields its popcount 16;
every string whose parsed value has at most 32 set bits yields exactly that
popcount; and every unparseable string yields 0 (`NaN` renders as a binary
string with no `'1'`), never an error. -/
theorem c10_popcount_without_validation :
    netmaskToPrefixLength "F0F0F0F0" = .ok 16 ∧
    (∀ (s : String) (v : Int), jsParseIntHex s = JsNum.num v → natPopCount v.natAbs ≤ 32 →
      netmaskToPrefixLength s = .ok (natPopCount v.natAbs)) ∧
    (∀ s : String, jsParseIntHex s = JsNum.nan → netmaskToPrefixLength s = .ok 0) := by
  refine ⟨by decide, ?_, ?_⟩
  · intro s v hp hc
    simp only [netmaskToPrefixLength, hp, countOnes_jsToStringBase2]
    rw [if_neg (by omega)]
  · intro s hp
    simp only [netmaskToPrefixLength, hp]
    decide

/-- C10 witness: an unparseable netmask yields 0 and a parseable one yields
its popcount. -/
theorem c10_popcount_without_validation_witness :
    jsParseIntHex "zz" = JsNum.nan ∧ netmaskToPrefixLength "zz" = .ok 0 ∧
    natPopCount (4042322160 : Int).natAbs ≤ 32 ∧
    netmaskToPrefixLength "F0F0F0F0" = .ok (natPopCount (4042322160 : Int).natAbs) :=
  ⟨by decide, c10_popcount_without_validation.2.2 "zz" (by decide), by decide,
   c10_popcount_without_validation.2.1 "F0F0F0F0" 4042322160 (by decide) (by decide)⟩
